import Mathlib

/-!
# Verification of the LaBot MITM bridge (`labot/mitm/bridge.py`)

Shallow embedding of the bridge/session engine: the relay loop
(`BridgeHandler.loop`), the frame-dispatch handlers (`MsgBridgeHandler`,
`InjectorBridgeHandler`, `LucInjector`), the sequence bookkeeping, and the
chat-token automation.

External collaborators (`Buffer`, `Msg.fromRaw`, `protocol.read`,
`protocol.msg_from_id`, sockets, the persistence/reporting sinks) live
outside the embedded module.  They are modelled as inputs:

* a raw chunk is represented by the list of complete frames that
  `Msg.fromRaw` successively extracts from the per-origin buffer after the
  chunk is appended (the byte-level codec is external to the bridge);
* the registry `protocol.msg_from_id` is a membership predicate on ids;
* each frame records the value `msg.data.remaining()` would have after
  `protocol.read` consumed it, so the post-decode assertions can be stated;
* the sinks are modelled by flags saying whether their call raises;
* the wall clock (`time.time()`) is passed in as a rational value per call
  site; the Python float is modelled by `ℚ`.

Python `int` is modelled by `ℤ` where a value can go negative
(`msg.count += injected_to_server - injected_to_client`), by `ℕ` for the
pure tallies.
-/

namespace LaBot

/-- A complete protocol frame as produced by `Msg.fromRaw`: numeric id,
the client→server sequence counter `count`, and the number of payload
bytes that `protocol.read` would leave unconsumed (`msg.data.remaining()`
after the decode).  The byte payload itself is irrelevant to the bridge
logic and is not carried. -/
structure Frame where
  id : Nat
  count : Int
  remaining : Nat
  deriving DecidableEq, Repr

/-- Mutable state of an `InjectorBridgeHandler` instance: the three ad hoc
counters set up in `__init__`, the bounded history `db = deque([], maxlen=db_size)`
and whether a `dumper` was supplied. -/
structure InjState where
  injected_to_client : Nat
  injected_to_server : Nat
  counter : Int
  db : List Frame
  db_size : Nat
  hasDumper : Bool
  deriving DecidableEq, Repr

/-- `deque.append` on a deque with `maxlen`: append right, evict oldest
(leftmost) when the bound is exceeded. -/
def dequeAppend (maxlen : Nat) (l : List Frame) (x : Frame) : List Frame :=
  let l := l ++ [x]
  if l.length > maxlen then l.drop (l.length - maxlen) else l

/-- Observable actions of `InjectorBridgeHandler.handle`. -/
inductive IEvent where
  /-- `self.other[origin].sendall(data)` — the raw chunk, forwarded verbatim
  before any parsing (line 206). -/
  | forwardRaw (chunk : List Frame)
  /-- `self.db.append(msg)` — the (possibly count-rewritten) message that
  enters the history ring. -/
  | dbAppend (m : Frame)
  /-- `self.dumper.dump(msg)` succeeded. -/
  | dumped (m : Frame)
  /-- `self.handle_message(parsedMsg, origin)` was invoked. -/
  | handledMessage (id : Nat)
  deriving DecidableEq, Repr

/-- Outcome of running `InjectorBridgeHandler.handle` on one chunk. -/
inductive InjOutcome where
  /-- The extraction loop ended normally. -/
  | ok (s : InjState) (evs : List IEvent)
  /-- `assert msg.data.remaining() in [0, 48]` failed: AssertionError
  propagates, fatal for the session. -/
  | assertError (evs : List IEvent)
  /-- `self.dumper.dump(msg)` raised: the error propagates, fatal for the
  session. -/
  | dumpError (evs : List IEvent)
  /-- The loop can never terminate: it reached a frame whose id is not in
  the registry, and that branch neither re-extracts a message nor exits. -/
  | divergent (evs : List IEvent)
  deriving DecidableEq, Repr

/-- Prefix more events onto an outcome's trace. -/
def InjOutcome.withEvents (pre : List IEvent) : InjOutcome → InjOutcome
  | .ok s evs => .ok s (pre ++ evs)
  | .assertError evs => .assertError (pre ++ evs)
  | .dumpError evs => .dumpError (pre ++ evs)
  | .divergent evs => .divergent (pre ++ evs)

/-- The per-frame bookkeeping of `InjectorBridgeHandler.handle`
(lines 235-240): on a client frame the counter offset
`injected_to_server - injected_to_client` is added to `msg.count` and
`self.counter` is set to the result; on a server frame `self.counter`
is incremented.  Returns the new state (history updated) and the message
object as it is appended to `db` / handed to the dumper. -/
def injProcessFrame (from_client : Bool) (s : InjState) (f : Frame) :
    InjState × Frame :=
  let m := if from_client
    then { f with count := f.count + ((s.injected_to_server : Int) - (s.injected_to_client : Int)) }
    else f
  let s := if from_client
    then { s with counter := m.count }
    else { s with counter := s.counter + 1 }
  ({ s with db := dequeAppend s.db_size s.db m }, m)

/-- Result of one pass through the body of the
`while msg is not None` loop of `InjectorBridgeHandler.handle`. -/
inductive InjNext where
  /-- Known id, consumption check and dump succeeded; the loop re-runs
  `Msg.fromRaw` and continues. -/
  | cont (s' : InjState) (evs : List IEvent)
  /-- `assert msg.data.remaining() in [0, 48]` failed. -/
  | stopAssert
  /-- `dumper.dump(msg)` raised. -/
  | stopDump (evs : List IEvent)
  /-- `msg.id` not in the registry: the branch only prints and sleeps, so
  the loop variable is left unchanged. -/
  | stuck
  deriving DecidableEq, Repr

/-- The body of the `InjectorBridgeHandler.handle` loop (lines 213-250)
applied to the frame currently held in `msg`. -/
def injBodyStep (registry : Nat → Bool) (dumpRaises : Frame → Bool)
    (from_client : Bool) (s : InjState) (f : Frame) : InjNext :=
  if registry f.id then
    if f.remaining = 0 ∨ f.remaining = 48 then
      if (injProcessFrame from_client s f).1.hasDumper
          && dumpRaises (injProcessFrame from_client s f).2 then
        .stopDump [.dbAppend (injProcessFrame from_client s f).2]
      else
        .cont (injProcessFrame from_client s f).1
          ([.dbAppend (injProcessFrame from_client s f).2]
            ++ (if (injProcessFrame from_client s f).1.hasDumper
                then [.dumped (injProcessFrame from_client s f).2] else [])
            ++ [.handledMessage f.id])
    else .stopAssert
  else .stuck

/-- The `while msg is not None` extraction loop of
`InjectorBridgeHandler.handle` (lines 212-250), run over the frame `cur`
currently held in `msg` and the frames `pending` still extractable from the
buffer.  `registry` is membership in `protocol.msg_from_id`; `dumpRaises`
says whether `dumper.dump` raises on a given message.

The unknown-id branch (lines 247-250) only prints and sleeps: it does not
call `Msg.fromRaw` again, so the loop variable never changes and the loop
cannot terminate — modelled by the `divergent` outcome. -/
def injFramesLoop (registry : Nat → Bool) (dumpRaises : Frame → Bool)
    (from_client : Bool) : InjState → Option Frame → List Frame → InjOutcome
  | s, none, _ => .ok s []
  | s, some f, pending =>
    match injBodyStep registry dumpRaises from_client s f with
    | .cont s' evs =>
      match pending with
      | [] => .ok s' evs
      | g :: rest =>
        (injFramesLoop registry dumpRaises from_client s' (some g) rest).withEvents evs
    | .stopAssert => .assertError []
    | .stopDump evs => .dumpError evs
    | .stuck => .divergent []

/-- `InjectorBridgeHandler.handle(data, origin)` (lines 205-250): forward
the raw chunk verbatim to the opposite socket, append it to the origin's
buffer, then run the extraction loop. -/
def injHandle (registry : Nat → Bool) (dumpRaises : Frame → Bool)
    (from_client : Bool) (s : InjState) (chunk : List Frame) : InjOutcome :=
  (injFramesLoop registry dumpRaises from_client s chunk.head? chunk.tail).withEvents
    [.forwardRaw chunk]

/-- `InjectorBridgeHandler.send_to_server(data)` for a structured `Msg`
argument (lines 185-190): the message's `count` is set to `self.counter + 1`,
`self.injected_to_server` is incremented, and the encoded bytes are sent.
Returns the new handler state and the counter value assigned to the
outgoing message.  Note that `self.counter` itself is left untouched. -/
def injSendToServer (s : InjState) : InjState × Int :=
  ({ s with injected_to_server := s.injected_to_server + 1 }, s.counter + 1)

/-! ## Small-step view of the `InjectorBridgeHandler.handle` loop

To settle termination questions the same loop is also given as a one-step
transition function on explicit configurations: `cur` is the frame held in
the Python variable `msg`, `pending` the frames still extractable from the
buffer. -/

/-- A configuration of the `while msg is not None` loop. -/
structure InjConf where
  cur : Option Frame
  pending : List Frame
  s : InjState
  deriving DecidableEq, Repr

/-- Result of one pass through the loop head and body. -/
inductive InjStep where
  | running (c : InjConf)
  | finished (s : InjState)
  | raisedAssert
  | raisedDump
  deriving DecidableEq, Repr

/-- One iteration of the `InjectorBridgeHandler.handle` loop
(lines 212-250).  The unknown-id branch executes only
`print(str(data)+ 'sent !!!!')` and `time.sleep(0.5)`: it neither re-runs
`Msg.fromRaw` nor breaks, so the configuration is returned unchanged. -/
def injStep (registry : Nat → Bool) (dumpRaises : Frame → Bool)
    (from_client : Bool) : InjConf → InjStep
  | ⟨none, _, s⟩ => .finished s
  | ⟨some f, pending, s⟩ =>
    match injBodyStep registry dumpRaises from_client s f with
    | .cont s' _ => .running ⟨pending.head?, pending.tail, s'⟩
    | .stopAssert => .raisedAssert
    | .stopDump _ => .raisedDump
    | .stuck => .running ⟨some f, pending, s⟩

/-- Run at most `n` iterations of the loop; `.running c` means the loop has
not yet exited after `n` iterations. -/
def injIterate (registry : Nat → Bool) (dumpRaises : Frame → Bool)
    (from_client : Bool) : Nat → InjConf → InjStep
  | 0, c => .running c
  | n + 1, c =>
    match injStep registry dumpRaises from_client c with
    | .running c' => injIterate registry dumpRaises from_client n c'
    | r => r

/-! ## The `MsgBridgeHandler` / `LucInjector` extraction loop

`MsgBridgeHandler.handle` (lines 123-150) and `LucInjector.handle`
(lines 328-347) share the same loop: forward the raw chunk (via
`super().handle`), append to the buffer, then extract frames one by one.
A known id is decoded, checked for exact consumption
(`assert msg.data.remaining() == 0`) and dispatched to `handle_message`;
an unknown id is logged (`print('sorry, no '+str(msg.id))`) and the loop
re-extracts, skipping that frame. -/

/-- Observable per-frame actions of the Msg-style loop. -/
inductive MEvent where
  | handledMessage (id : Nat)
  | skippedUnknown (id : Nat)
  deriving DecidableEq, Repr

/-- The extraction loop of `MsgBridgeHandler.handle` / `LucInjector.handle`
over the frames the buffer yields.  `none` models the `AssertionError`
raised when a decoded frame has unconsumed payload bytes; it aborts the
loop (and the session). -/
def msgFramesLoop (registry : Nat → Bool) : List Frame → Option (List MEvent)
  | [] => some []
  | f :: rest =>
    if registry f.id then
      if f.remaining = 0 then
        (msgFramesLoop registry rest).map (fun evs => .handledMessage f.id :: evs)
      else none
    else
      (msgFramesLoop registry rest).map (fun evs => .skippedUnknown f.id :: evs)

/-! ## The relay loop `BridgeHandler.loop` (lines 71-87)

The loop multiplexes over the two sockets with `select.select`; the model
feeds it a finite script of readiness results.  Each script entry gives
whether the exceptional list was non-empty and, for each ready connection,
the bytes `recv(8192)` returns (the empty list modelling a zero-length
read, i.e. peer closure).  `raises` says whether the policy's `handle`
raises on a given chunk. -/

/-- The two connection slots (`coJeu` / `coSer`). -/
inductive Conn where
  | primary | secondary
  deriving DecidableEq, Repr

/-- Observable actions of the relay loop. -/
inductive CEvent where
  /-- `self.handle(data, origin=r)` was invoked with this chunk. -/
  | handled (t : Conn) (data : List Nat)
  /-- `c.close()` ran in the `finally` block. -/
  | closed (t : Conn)
  deriving DecidableEq, Repr

/-- How the inner `for r in rlist` loop ended. -/
inductive ReadPhase where
  | allHandled | peerClosed | policyRaised
  deriving DecidableEq, Repr

/-- The inner `for r in rlist` loop (lines 79-84): one bounded read per
ready connection; a zero-length read sets `active = False` and breaks, so
later ready connections of the same iteration are not read or handled; a
policy exception propagates out of the `for` and the `while`. -/
def processReads (raises : Conn → List Nat → Bool) :
    List (Conn × List Nat) → List CEvent × ReadPhase
  | [] => ([], .allHandled)
  | (t, d) :: rest =>
    if d = [] then ([], .peerClosed)
    else if raises t d then ([CEvent.handled t d], .policyRaised)
    else
      (CEvent.handled t d :: (processReads raises rest).1,
        (processReads raises rest).2)

/-- One `select.select` outcome: whether `xlist` was non-empty, and the
ready connections with their read results. -/
structure SelectIter where
  exceptional : Bool
  reads : List (Conn × List Nat)
  deriving DecidableEq, Repr

/-- The `finally: for c in conns: c.close()` block — each of the two
connections is closed once, in construction order `[coJeu, coSer]`. -/
def closeEvents : List CEvent := [.closed .primary, .closed .secondary]

/-- Result of running the relay loop against a finite readiness script. -/
inductive LoopResult where
  /-- The script ran out while the loop was still alive: the session is
  blocked in `select.select`, nothing has been closed. -/
  | blockedSelect (evs : List CEvent)
  /-- The loop exited (normally or by a propagating exception); the
  `finally` block has run. -/
  | exited (evs : List CEvent)
  deriving DecidableEq, Repr

/-- `BridgeHandler.loop` (lines 71-87): `while active: select; if xlist or
not rlist: break; for r in rlist: ...` wrapped in `try/finally` that closes
both connections on every exit path. -/
def bridgeLoop (raises : Conn → List Nat → Bool) :
    List SelectIter → LoopResult
  | [] => .blockedSelect []
  | it :: rest =>
    if it.exceptional ∨ it.reads = [] then .exited closeEvents
    else
      match (processReads raises it.reads).2 with
      | .peerClosed => .exited ((processReads raises it.reads).1 ++ closeEvents)
      | .policyRaised => .exited ((processReads raises it.reads).1 ++ closeEvents)
      | .allHandled =>
        match bridgeLoop raises rest with
        | .blockedSelect evs2 => .blockedSelect ((processReads raises it.reads).1 ++ evs2)
        | .exited evs2 => .exited ((processReads raises it.reads).1 ++ evs2)

/-! ## `LucInjector`: state, outbound operations, automation

`LucInjector.__init__` (lines 274-283) sets `injected_to_server = 0`,
`counter = 0`, `injections = 0`, `script = "off"`, a literal configuration
list `items`, `itemsleft = [None] * len(items)` and `timer = time.time()`.
The literal item table is configuration data and is a parameter here.
`time.time()` values are passed in as rationals, one per call site. -/

/-- Mutable state of a `LucInjector` instance. -/
structure LucState where
  injected_to_server : Nat
  counter : Int
  injections : Nat
  script : String
  items : List Nat
  itemsleft : List (Option Nat)
  timer : ℚ
  deriving DecidableEq, Repr

/-- `LucInjector.__init__` (minus the sockets/buffers). -/
def lucInit (items : List Nat) (now : ℚ) : LucState :=
  { injected_to_server := 0, counter := 0, injections := 0, script := "off",
    items := items, itemsleft := List.replicate items.length none, timer := now }

/-- A structured message sent to the server socket by `LucInjector`,
with the sequence counter assigned to it by `send_to_server`. -/
inductive LucSend where
  /-- `ChatClientMultiMessage` with free-text `content`, channel 0. -/
  | chat (content : String) (count : Int)
  /-- `ExchangeBidHouseSearchMessage` with `genId` and `follow = True`. -/
  | bidHouseSearch (genId : Option Nat) (count : Int)
  /-- `LeaveDialogRequestMessage`. -/
  | leaveDialog (count : Int)
  /-- `InteractiveUseRequestMessage` with fixed element/skill ids. -/
  | interactiveUse (elemId skillInstanceUid : Nat) (count : Int)
  deriving DecidableEq, Repr

/-- Observable actions of `LucInjector.handle_message`. -/
inductive LucEvent where
  /-- A synthetic message went to the server via `send_to_server`. -/
  | send (m : LucSend)
  /-- The `requests.get` price-export call succeeded. -/
  | report (itemID : Nat) (prices : List Int)
  deriving DecidableEq, Repr

/-- `LucInjector.send_to_server` for a `Msg` argument (lines 285-292):
assigns `count = self.counter + 1` to the outgoing message, increments
`injected_to_server`, sends the bytes.  `self.counter` is not modified.
Returns the new state and the assigned counter. -/
def lucSendToServer (s : LucState) : LucState × Int :=
  ({ s with injected_to_server := s.injected_to_server + 1 }, s.counter + 1)

/-- `LucInjector.send_message` (lines 296-300). -/
def lucSendMessage (s : LucState) (content : String) : LucState × LucSend :=
  let (s', c) := lucSendToServer s
  (s', .chat content c)

/-- `LucInjector.ask_item_price` (lines 307-311); the argument is what
`itemsleft.pop()` produced. -/
def lucAskItemPrice (s : LucState) (itemid : Option Nat) : LucState × LucSend :=
  let (s', c) := lucSendToServer s
  (s', .bidHouseSearch itemid c)

/-- `LucInjector.disconnect_hdv` (lines 313-317). -/
def lucDisconnectHdv (s : LucState) : LucState × LucSend :=
  let (s', c) := lucSendToServer s
  (s', .leaveDialog c)

/-- `LucInjector.connect_hdv` (lines 319-323). -/
def lucConnectHdv (s : LucState) : LucState × LucSend :=
  let (s', c) := lucSendToServer s
  (s', .interactiveUse 522694 136144973 c)

/-- A decoded message as seen by `LucInjector.handle_message`: its
`__type__`, the `content` field (meaningful for chat messages) and the
`itemTypeDescriptions` field (meaningful for the exchanger description
message), each entry carrying `objectGID` and `prices`. -/
structure ItemDesc where
  objectGID : Nat
  prices : List Int
  deriving DecidableEq, Repr

/-- See `ItemDesc`. -/
structure PMsg where
  type : String
  content : String
  itemTypeDescriptions : List ItemDesc
  deriving DecidableEq, Repr

/-- The game-internal message types masked from printing (line 370). -/
def maskedTypes : List String :=
  ["GameMapMovementMessage", "SetCharacterRestrictionsMessage",
   "GameContextRefreshEntityLookMessage", "GameRolePlayShowActorMessage",
   "GameMapChangeOrientationMessage", "UpdateMapPlayersAgressableStatusMessage",
   "GameContextRemoveElementMessage", "ChatServerMessage",
   "ChatServerWithObjectMessage"]

/-- The automation block at the top of `LucInjector.handle_message`
(lines 352-368), run on every decoded frame: when `script == "on"`,
either refill an exhausted worklist, or — if more than 0.8 time units
elapsed since `timer` — perform one action: every third action
(`injections % 3 == 2`) is the leave/re-enter context-refresh pair,
otherwise pop the last worklist entry and query its price, resetting
`timer` (the reset sits inside the pop branch only).  `injections` is
incremented after either action. -/
def lucScriptTick (now : ℚ) (s : LucState) : LucState × List LucEvent :=
  if s.script = "on" then
    if s.itemsleft.length = 0 then
      ({ s with itemsleft := s.items.map some }, [])
    else
      let diff := now - s.timer
      if diff > 4/5 then
        if s.injections % 3 = 2 then
          let (s1, e1) := lucDisconnectHdv s
          let (s2, e2) := lucConnectHdv s1
          ({ s2 with injections := s2.injections + 1 }, [.send e1, .send e2])
        else
          let item := s.itemsleft.getLastD none
          let s1 := { s with itemsleft := s.itemsleft.dropLast }
          let (s2, e) := lucAskItemPrice s1 item
          let s3 := { s2 with timer := now }
          ({ s3 with injections := s3.injections + 1 }, [.send e])
      else (s, [])
  else (s, [])

/-- The state mutation of the start-token branch (lines 394-398):
`script = "on"`, `timer = time.time()`, worklist refilled from `items`. -/
def lucOnState (now2 : ℚ) (t : LucState) : LucState :=
  { t with script := "on", timer := now2, itemsleft := t.items.map some }

/-- The state mutation of the stop-token branch (line 391): `script = "off"`. -/
def lucOffState (t : LucState) : LucState :=
  { t with script := "off" }

/-- `LucInjector.handle_message` (lines 350-399).  `reportRaises` models
the `requests.get` price-export call raising; `now` is the `time.time()`
value read by the automation block, `now2` the one read at line 395 when
the start token resets the timer.  Returns `none` when an exception
(`requests` failure) propagates out of the handler — which aborts the
relay loop and the session. -/
def lucHandleMessage (reportRaises : Bool) (now now2 : ℚ)
    (s : LucState) (msg : PMsg) (from_client : Bool) :
    Option (LucState × List LucEvent) :=
  let p := lucScriptTick now s
  let s := p.1
  let evs := p.2
  if msg.type ∉ maskedTypes ∨ from_client = true then
    if msg.type = "ExchangeTypesItemsExchangerDescriptionForUserMessage" then
      match msg.itemTypeDescriptions with
      | [] => some (s, evs)
      | d :: _ =>
        if reportRaises then none
        else some (s, evs ++ [.report d.objectGID d.prices])
    else if msg.type = "ChatClientMultiMessage" then
      if msg.content = "stop" then
        let q := lucSendMessage (lucOffState s) "stooooooop"
        some (q.1, evs ++ [.send q.2])
      else if msg.content = "lessgo" then
        let q := lucSendMessage (lucOnState now2 s) "gooooooooo"
        some (q.1, evs ++ [.send q.2])
      else some (s, evs)
    else some (s, evs)
  else some (s, evs)

/-! ## Helper lemmas -/

/-- The automation tick never touches `items`, `counter` or `script`. -/
theorem lucScriptTick_preserves (now : ℚ) (s : LucState) :
    (lucScriptTick now s).1.items = s.items ∧
    (lucScriptTick now s).1.counter = s.counter ∧
    (lucScriptTick now s).1.script = s.script := by
  unfold lucScriptTick lucDisconnectHdv lucConnectHdv lucAskItemPrice lucSendToServer
  dsimp only
  split_ifs <;> simp

/-- When the automation is idle, the tick is the identity. -/
theorem lucScriptTick_idle (now : ℚ) (s : LucState) (h : s.script ≠ "on") :
    lucScriptTick now s = (s, []) := by
  unfold lucScriptTick
  rw [if_neg h]

/-- When the automation is idle or the pacing threshold has not elapsed,
the tick emits no events and leaves the injection tally and the counter
unchanged (it may still refill an exhausted worklist). -/
theorem lucScriptTick_quiet (now : ℚ) (s : LucState)
    (h : s.script ≠ "on" ∨ ¬(now - s.timer > 4/5)) :
    (lucScriptTick now s).2 = [] ∧
    (lucScriptTick now s).1.injected_to_server = s.injected_to_server ∧
    (lucScriptTick now s).1.counter = s.counter := by
  by_cases hs : s.script = "on"
  · have hd : ¬(now - s.timer > 4/5) := h.resolve_left (by simp [hs])
    unfold lucScriptTick
    rw [if_pos hs]
    by_cases hl : s.itemsleft.length = 0
    · rw [if_pos hl]
      exact ⟨rfl, rfl, rfl⟩
    · rw [if_neg hl, if_neg hd]
      exact ⟨rfl, rfl, rfl⟩
  · rw [lucScriptTick_idle now s hs]
    exact ⟨rfl, rfl, rfl⟩

/-- `injProcessFrame` never touches the injected-traffic tallies nor the
dumper flag nor the ring capacity. -/
theorem injProcessFrame_preserves (from_client : Bool) (s : InjState) (f : Frame) :
    (injProcessFrame from_client s f).1.injected_to_client = s.injected_to_client ∧
    (injProcessFrame from_client s f).1.injected_to_server = s.injected_to_server ∧
    (injProcessFrame from_client s f).1.hasDumper = s.hasDumper ∧
    (injProcessFrame from_client s f).1.db_size = s.db_size := by
  unfold injProcessFrame
  cases from_client <;> simp

/-- On a server→client frame, the per-frame bookkeeping advances
`self.counter` by one. -/
theorem injProcessFrame_server_counter (s : InjState) (f : Frame) :
    (injProcessFrame false s f).1.counter = s.counter + 1 := by
  unfold injProcessFrame
  simp

/-- One-step unfolding of the extraction loop: successful body pass, no
frame left in the buffer. -/
theorem injFramesLoop_cont_nil (registry : Nat → Bool) (dumpRaises : Frame → Bool)
    (fc : Bool) (s s1 : InjState) (f : Frame) (E : List IEvent)
    (hbody : injBodyStep registry dumpRaises fc s f = .cont s1 E) :
    injFramesLoop registry dumpRaises fc s (some f) [] = .ok s1 E := by
  conv_lhs => unfold injFramesLoop
  rw [hbody]

/-- One-step unfolding of the extraction loop: successful body pass with
frames remaining. -/
theorem injFramesLoop_cont_cons (registry : Nat → Bool) (dumpRaises : Frame → Bool)
    (fc : Bool) (s s1 : InjState) (f g : Frame) (rest : List Frame) (E : List IEvent)
    (hbody : injBodyStep registry dumpRaises fc s f = .cont s1 E) :
    injFramesLoop registry dumpRaises fc s (some f) (g :: rest) =
      (injFramesLoop registry dumpRaises fc s1 (some g) rest).withEvents E := by
  conv_lhs => unfold injFramesLoop
  rw [hbody]

/-- The extraction loop aborts with the session-fatal `AssertionError`
when the body's consumption check fails. -/
theorem injFramesLoop_stopAssert (registry : Nat → Bool) (dumpRaises : Frame → Bool)
    (fc : Bool) (s : InjState) (f : Frame) (pending : List Frame)
    (hbody : injBodyStep registry dumpRaises fc s f = .stopAssert) :
    injFramesLoop registry dumpRaises fc s (some f) pending = .assertError [] := by
  cases pending with
  | nil =>
    conv_lhs => unfold injFramesLoop
    rw [hbody]
  | cons g rest =>
    conv_lhs => unfold injFramesLoop
    rw [hbody]

/-- The extraction loop aborts with the session-fatal dumper error when
`dumper.dump` raises. -/
theorem injFramesLoop_stopDump (registry : Nat → Bool) (dumpRaises : Frame → Bool)
    (fc : Bool) (s : InjState) (f : Frame) (pending : List Frame) (E : List IEvent)
    (hbody : injBodyStep registry dumpRaises fc s f = .stopDump E) :
    injFramesLoop registry dumpRaises fc s (some f) pending = .dumpError E := by
  cases pending with
  | nil =>
    conv_lhs => unfold injFramesLoop
    rw [hbody]
  | cons g rest =>
    conv_lhs => unfold injFramesLoop
    rw [hbody]

/-- A successful pass through the loop body: known id, consumption check
passed, dumper silent. -/
theorem injBodyStep_ok (registry : Nat → Bool) (dumpRaises : Frame → Bool)
    (fc : Bool) (s : InjState) (f : Frame)
    (hreg : registry f.id = true) (hrem : f.remaining = 0 ∨ f.remaining = 48)
    (hsilent : ((injProcessFrame fc s f).1.hasDumper
      && dumpRaises (injProcessFrame fc s f).2) = false) :
    injBodyStep registry dumpRaises fc s f =
      .cont (injProcessFrame fc s f).1
        ([.dbAppend (injProcessFrame fc s f).2]
          ++ (if (injProcessFrame fc s f).1.hasDumper
              then [.dumped (injProcessFrame fc s f).2] else [])
          ++ [.handledMessage f.id]) := by
  simp only [injBodyStep, hreg, if_true, if_pos hrem, hsilent,
    Bool.false_eq_true, if_false]

/-- Composing one successful loop-body pass with a terminating run of the
remainder of the loop. -/
theorem injFramesLoop_ok_of_cont (registry : Nat → Bool) (dumpRaises : Frame → Bool)
    (fc : Bool) (s s1 s' : InjState) (f : Frame) (rest : List Frame)
    (E evs : List IEvent)
    (hbody : injBodyStep registry dumpRaises fc s f = .cont s1 E)
    (hrun : injFramesLoop registry dumpRaises fc s1 rest.head? rest.tail = .ok s' evs) :
    injFramesLoop registry dumpRaises fc s (some f) rest = .ok s' (E ++ evs) := by
  cases rest with
  | nil =>
    rw [injFramesLoop_cont_nil registry dumpRaises fc s s1 f E hbody]
    rw [List.head?_nil, List.tail_nil] at hrun
    rw [show injFramesLoop registry dumpRaises fc s1 (none : Option Frame) [] =
      .ok s1 [] by conv_lhs => unfold injFramesLoop] at hrun
    injection hrun with h1 h2
    subst h1
    subst h2
    simp
  | cons g r =>
    rw [injFramesLoop_cont_cons registry dumpRaises fc s s1 f g r E hbody]
    rw [List.head?_cons, List.tail_cons] at hrun
    rw [hrun]
    rfl

/-- Running the extraction loop over a chunk of server→client frames that
are all in the registry and pass the consumption check, with a dumper that
never raises, terminates normally and advances `counter` once per frame. -/
theorem injFramesLoop_server_run (registry : Nat → Bool) (dumpRaises : Frame → Bool)
    (s : InjState) (chunk : List Frame)
    (hall : ∀ f ∈ chunk, registry f.id = true ∧ (f.remaining = 0 ∨ f.remaining = 48))
    (hdump : ∀ m, dumpRaises m = false) :
    ∃ s' evs,
      injFramesLoop registry dumpRaises false s chunk.head? chunk.tail = .ok s' evs ∧
      s'.counter = s.counter + chunk.length ∧
      s'.injected_to_server = s.injected_to_server ∧
      s'.injected_to_client = s.injected_to_client := by
  induction chunk generalizing s with
  | nil => exact ⟨s, [], rfl, by simp, rfl, rfl⟩
  | cons f rest ih =>
    obtain ⟨hreg, hrem⟩ := hall f (by simp)
    obtain ⟨s', evs, hrun, hcnt, hits, hitc⟩ :=
      ih (s := (injProcessFrame false s f).1) (fun x hx => hall x (by simp [hx]))
    have hbody := injBodyStep_ok registry dumpRaises false s f hreg hrem
      (by rw [hdump]; simp)
    refine ⟨s', _ ++ evs,
      injFramesLoop_ok_of_cont registry dumpRaises false s
        (injProcessFrame false s f).1 s' f rest _ evs hbody hrun, ?_, ?_, ?_⟩
    · rw [hcnt, injProcessFrame_server_counter]
      push_cast [List.length_cons]
      ring
    · rw [hits]; exact (injProcessFrame_preserves false s f).2.1
    · rw [hitc]; exact (injProcessFrame_preserves false s f).1

/-! ## C1 -/

/-- C1 counterexample.  With one prior synthetic client→server injection
(`injected_to_server = 1`, `injected_to_client = 0`), a genuine client
frame with counter 5 must — per the claim — be forwarded with counter
`5 + (1 − 0) = 6`.  Evaluating `InjectorBridgeHandler.handle` shows the
only transmission to the server is the `forwardRaw` event, executed before
parsing and carrying the original chunk, counter 5 unchanged; the rewritten
counter 6 reaches only the internal history record (`dbAppend`) and the
internal `self.counter` (the line re-sending `msg.bytes()` is commented
out in the source).  `5 ≠ 5 + (1 − 0)` refutes the claim as stated. -/
theorem c1_counterexample :
    injHandle (fun i => i == 42) (fun _ => false) true
        ⟨0, 1, 0, [], 100, false⟩ [⟨42, 5, 0⟩] =
      .ok ⟨0, 1, 6, [⟨42, 6, 0⟩], 100, false⟩
        [.forwardRaw [⟨42, 5, 0⟩], .dbAppend ⟨42, 6, 0⟩, .handledMessage 42] ∧
    (5 : Int) ≠ 5 + (1 - 0) := by
  constructor
  · decide
  · decide

/-- C1 (amended): the counter offset
`injected_to_server − injected_to_client` is recomputed at each genuine
client→server frame, but it is applied only to the handler's internal
bookkeeping — the history-ring record and `self.counter` — while the frame
actually forwarded to the server is the raw chunk, transmitted before
parsing with its original counter unmodified. -/
theorem c1_forward_vs_bookkeeping (registry : Nat → Bool) (dumpRaises : Frame → Bool)
    (s : InjState) (f : Frame)
    (hreg : registry f.id = true) (hrem : f.remaining = 0 ∨ f.remaining = 48)
    (hdumper : s.hasDumper = false) :
    injHandle registry dumpRaises true s [f] =
      .ok { s with
              counter := f.count + ((s.injected_to_server : Int) - (s.injected_to_client : Int)),
              db := dequeAppend s.db_size s.db
                { f with count := f.count + ((s.injected_to_server : Int) - (s.injected_to_client : Int)) } }
        [.forwardRaw [f],
         .dbAppend { f with count := f.count + ((s.injected_to_server : Int) - (s.injected_to_client : Int)) },
         .handledMessage f.id] := by
  have hs1 : (injProcessFrame true s f).1.hasDumper = false := by
    rw [(injProcessFrame_preserves true s f).2.2.1, hdumper]
  have hbody := injBodyStep_ok registry dumpRaises true s f hreg hrem
    (by rw [hs1]; rfl)
  show (injFramesLoop registry dumpRaises true s [f].head? [f].tail).withEvents
      [.forwardRaw [f]] = _
  rw [List.head?_cons, List.tail_cons,
    injFramesLoop_cont_nil registry dumpRaises true s _ f _ hbody]
  simp [injProcessFrame, hdumper, InjOutcome.withEvents]

/-- C1 witness: the amended theorem applied at the counterexample input. -/
theorem c1_witness :
    injHandle (fun i => i == 42) (fun _ => false) true
        ⟨0, 1, 0, [], 100, false⟩ [⟨42, 5, 0⟩] =
      .ok ⟨0, 1, 5 + ((1 : Int) - 0), [⟨42, 5 + ((1 : Int) - 0), 0⟩], 100, false⟩
        [.forwardRaw [⟨42, 5, 0⟩], .dbAppend ⟨42, 5 + ((1 : Int) - 0), 0⟩,
         .handledMessage 42] :=
  c1_forward_vs_bookkeeping (fun i => i == 42) (fun _ => false)
    ⟨0, 1, 0, [], 100, false⟩ ⟨42, 5, 0⟩ (by decide) (by decide) (by decide)

/-! ## C2 -/

/-- C2 counterexample.  `send_to_server` with a structured message on a
handler whose `counter` is 7 assigns the outgoing message counter
`7 + 1 = 8` — but afterwards `self.counter` still reads 7, not 8, in both
`InjectorBridgeHandler.send_to_server` and `LucInjector.send_to_server`:
the claim that `lastServerSeenCounter` is advanced to the assigned value
is false. -/
theorem c2_counterexample :
    (injSendToServer ⟨0, 0, 7, [], 100, false⟩).2 = 7 + 1 ∧
    (injSendToServer ⟨0, 0, 7, [], 100, false⟩).1.counter ≠ 7 + 1 ∧
    (lucSendToServer (lucInit [] 0)).1.counter ≠ (lucSendToServer (lucInit [] 0)).2 :=
  ⟨by decide, by decide, by decide⟩

/-- C2 (amended): `send_to_server` with a `Msg` assigns the message
sequence counter `counter + 1` and increments `injected_to_server` by
exactly 1, but leaves `self.counter` unchanged (so consecutive injections
without an interleaved genuine frame are all assigned the same counter). -/
theorem c2_send_to_server_amended (s : InjState) (t : LucState) :
    (injSendToServer s).2 = s.counter + 1 ∧
    (injSendToServer s).1.injected_to_server = s.injected_to_server + 1 ∧
    (injSendToServer s).1.counter = s.counter ∧
    (lucSendToServer t).2 = t.counter + 1 ∧
    (lucSendToServer t).1.injected_to_server = t.injected_to_server + 1 ∧
    (lucSendToServer t).1.counter = t.counter :=
  ⟨rfl, rfl, rfl, rfl, rfl, rfl⟩

/-! ## C3 -/

/-- C3: an unknown message id is handled as log-and-skip in
`MsgBridgeHandler.handle` / `LucInjector.handle` (second conjunct: frame
id 2 is skipped, the following frame id 1 still dispatched, the loop
terminates), but in `InjectorBridgeHandler.handle` the unknown-id branch
never re-runs `Msg.fromRaw`, so the loop configuration is a fixpoint:
after any number `n` of iterations the loop is still running on the very
same unknown frame — handling of the chunk never terminates, contradicting
the claim for the Inject variant. -/
theorem c3_unknown_id_not_skipped :
    (∀ n : Nat, injIterate (fun i => i == 1) (fun _ => false) true n
        ⟨some ⟨2, 0, 0⟩, [], ⟨0, 0, 0, [], 100, false⟩⟩ =
      .running ⟨some ⟨2, 0, 0⟩, [], ⟨0, 0, 0, [], 100, false⟩⟩) ∧
    msgFramesLoop (fun i => i == 1) [⟨2, 0, 0⟩, ⟨1, 7, 0⟩] =
      some [.skippedUnknown 2, .handledMessage 1] := by
  constructor
  · intro n
    induction n with
    | zero => rfl
    | succ n ih => exact ih
  · decide

/-! ## C4 -/

/-- C4 counterexample.  A client frame with known id whose decode leaves
48 unconsumed payload bytes — a nonzero remainder — does not raise in
`InjectorBridgeHandler.handle`: its `assert msg.data.remaining() in [0, 48]`
accepts it, and `handle_message` is invoked, contradicting the claim that
any nonzero remainder deterministically raises. -/
theorem c4_counterexample :
    injHandle (fun i => i == 42) (fun _ => false) true ⟨0, 0, 0, [], 100, false⟩
        [⟨42, 5, 48⟩] =
      .ok ⟨0, 0, 5, [⟨42, 5, 48⟩], 100, false⟩
        [.forwardRaw [⟨42, 5, 48⟩], .dbAppend ⟨42, 5, 48⟩, .handledMessage 42] ∧
    (48 : Nat) ≠ 0 :=
  ⟨by decide, by decide⟩

/-- C4 (amended): `MsgBridgeHandler` (and `LucInjector`) raise the fatal
assertion on any nonzero post-decode remainder and invoke `handle_message`
only when the remainder is zero; `InjectorBridgeHandler` additionally
tolerates a remainder of exactly 48 bytes, raising only for remainders
outside `{0, 48}`, and invokes its callback only after that check passes. -/
theorem c4_consumption_checks_amended (registry : Nat → Bool)
    (dumpRaises : Frame → Bool) (fc : Bool) (s : InjState) (f : Frame)
    (rest pending : List Frame) (hreg : registry f.id = true) :
    (f.remaining ≠ 0 → msgFramesLoop registry (f :: rest) = none) ∧
    (f.remaining = 0 → msgFramesLoop registry (f :: rest) =
      (msgFramesLoop registry rest).map (fun evs => MEvent.handledMessage f.id :: evs)) ∧
    (¬(f.remaining = 0 ∨ f.remaining = 48) →
      injFramesLoop registry dumpRaises fc s (some f) pending = .assertError []) ∧
    ((f.remaining = 0 ∨ f.remaining = 48) → s.hasDumper = false →
      injFramesLoop registry dumpRaises fc s (some f) pending =
        (injFramesLoop registry dumpRaises fc (injProcessFrame fc s f).1
            pending.head? pending.tail).withEvents
          [.dbAppend (injProcessFrame fc s f).2, .handledMessage f.id]) := by
  refine ⟨?_, ?_, ?_, ?_⟩
  · intro h
    simp [msgFramesLoop, hreg, h]
  · intro h
    simp [msgFramesLoop, hreg, h]
  · intro hn
    refine injFramesLoop_stopAssert registry dumpRaises fc s f pending ?_
    simp [injBodyStep, hreg, hn]
  · intro hrem hnd
    have hs1 : (injProcessFrame fc s f).1.hasDumper = false := by
      rw [(injProcessFrame_preserves fc s f).2.2.1, hnd]
    have hbody := injBodyStep_ok registry dumpRaises fc s f hreg hrem
      (by rw [hs1]; rfl)
    rw [hs1] at hbody
    simp only [Bool.false_eq_true, if_false] at hbody
    cases pending with
    | nil =>
      rw [injFramesLoop_cont_nil registry dumpRaises fc s _ f _ hbody]
      simp [InjOutcome.withEvents]
      rfl
    | cons g r =>
      rw [injFramesLoop_cont_cons registry dumpRaises fc s _ f g r _ hbody]
      simp [List.head?_cons, List.tail_cons]

/-- C4 witness: the amended theorem applied at a frame with remainder 7
(outside `{0, 48}`) in `InjectorBridgeHandler`: session-fatal assertion. -/
theorem c4_witness :
    injFramesLoop (fun i => i == 42) (fun _ => false) true
      ⟨0, 0, 0, [], 100, false⟩ (some ⟨42, 5, 7⟩) [] = .assertError [] :=
  (c4_consumption_checks_amended (fun i => i == 42) (fun _ => false) true
    ⟨0, 0, 0, [], 100, false⟩ ⟨42, 5, 7⟩ [] [] (by decide)).2.2.1 (by decide)

/-! ## C5 -/

/-- The inner read loop emits only `handled` events, never `closed`. -/
theorem processReads_no_closed (raises : Conn → List Nat → Bool)
    (reads : List (Conn × List Nat)) (c : Conn) :
    CEvent.closed c ∉ (processReads raises reads).1 := by
  induction reads with
  | nil => simp [processReads]
  | cons p rest ih =>
    obtain ⟨t, d⟩ := p
    by_cases hd : d = []
    · simp [processReads, hd]
    · by_cases hr : raises t d = true
      · simp [processReads, hd, hr]
      · simp [processReads, hd, hr, ih]

/-- A zero-length read in the middle of a readiness iteration: the reads
before it are handled, the inner loop stops with `peerClosed`, and nothing
after the zero-length read is handled. -/
theorem processReads_zero_read (raises : Conn → List Nat → Bool)
    (pre post : List (Conn × List Nat)) (t : Conn)
    (hpre : ∀ p ∈ pre, p.2 ≠ [] ∧ raises p.1 p.2 = false) :
    processReads raises (pre ++ (t, ([] : List Nat)) :: post) =
      (pre.map fun p => CEvent.handled p.1 p.2, .peerClosed) := by
  induction pre with
  | nil => simp [processReads]
  | cons p rest ih =>
    obtain ⟨u, d⟩ := p
    obtain ⟨hd, hr⟩ := hpre (u, d) (by simp)
    have ih' := ih (fun q hq => hpre q (by simp [hq]))
    simp [processReads, hd, hr, ih']

/-- C5: the relay loop `BridgeHandler.loop` closes both connections
exactly once on every exit path — the trace of any exited run is a prefix
containing no `closed` event followed by exactly the two `finally` closes —
a still-blocked session has closed nothing, and a zero-length read makes
the session exit within the same iteration: reads before the zero-length
one are still delivered, nothing after it (in that iteration or later
ones) reaches the policy, and the two closes follow immediately. -/
theorem c5_relay_loop_cleanup (raises : Conn → List Nat → Bool)
    (script : List SelectIter) (pre post : List (Conn × List Nat)) (t : Conn)
    (rest : List SelectIter)
    (hpre : ∀ p ∈ pre, p.2 ≠ [] ∧ raises p.1 p.2 = false) :
    (∀ evs, bridgeLoop raises script = .exited evs →
      ∃ p, evs = p ++ closeEvents ∧ ∀ c, CEvent.closed c ∉ p) ∧
    (∀ evs, bridgeLoop raises script = .blockedSelect evs →
      ∀ c, CEvent.closed c ∉ evs) ∧
    bridgeLoop raises ({ exceptional := false, reads := pre ++ (t, []) :: post } :: rest) =
      .exited ((pre.map fun p => CEvent.handled p.1 p.2) ++ closeEvents) := by
  refine ⟨?_, ?_, ?_⟩
  · induction script with
    | nil =>
      intro evs hex
      simp [bridgeLoop] at hex
    | cons it irest ih =>
      intro evs hex
      by_cases hx : it.exceptional = true ∨ it.reads = []
      · rw [show bridgeLoop raises (it :: irest) = .exited closeEvents by
          conv_lhs => unfold bridgeLoop
          rw [if_pos hx]] at hex
        injection hex with h
        exact ⟨[], h.symm, by simp⟩
      · rw [show bridgeLoop raises (it :: irest) =
            (match (processReads raises it.reads).2 with
              | .peerClosed => .exited ((processReads raises it.reads).1 ++ closeEvents)
              | .policyRaised => .exited ((processReads raises it.reads).1 ++ closeEvents)
              | .allHandled =>
                match bridgeLoop raises irest with
                | .blockedSelect evs2 => .blockedSelect ((processReads raises it.reads).1 ++ evs2)
                | .exited evs2 => .exited ((processReads raises it.reads).1 ++ evs2)) by
          conv_lhs => unfold bridgeLoop
          rw [if_neg hx]] at hex
        cases h2 : (processReads raises it.reads).2 with
        | peerClosed =>
          rw [h2] at hex
          injection hex with h
          exact ⟨_, h.symm, fun c => processReads_no_closed raises it.reads c⟩
        | policyRaised =>
          rw [h2] at hex
          injection hex with h
          exact ⟨_, h.symm, fun c => processReads_no_closed raises it.reads c⟩
        | allHandled =>
          rw [h2] at hex
          cases h3 : bridgeLoop raises irest with
          | blockedSelect evs2 =>
            rw [h3] at hex
            exact absurd hex (by simp)
          | exited evs2 =>
            rw [h3] at hex
            injection hex with h
            obtain ⟨p, hp, hnp⟩ := ih evs2 h3
            refine ⟨(processReads raises it.reads).1 ++ p, ?_, ?_⟩
            · rw [← h, hp, List.append_assoc]
            · intro c hc
              rcases List.mem_append.mp hc with hc | hc
              · exact processReads_no_closed raises it.reads c hc
              · exact hnp c hc
  · induction script with
    | nil =>
      intro evs hbl
      have : evs = [] := by
        have h : LoopResult.blockedSelect [] = .blockedSelect evs := hbl
        injection h with h'
        exact h'.symm
      simp [this]
    | cons it irest ih =>
      intro evs hbl
      by_cases hx : it.exceptional = true ∨ it.reads = []
      · rw [show bridgeLoop raises (it :: irest) = .exited closeEvents by
          conv_lhs => unfold bridgeLoop
          rw [if_pos hx]] at hbl
        exact absurd hbl (by simp)
      · rw [show bridgeLoop raises (it :: irest) =
            (match (processReads raises it.reads).2 with
              | .peerClosed => .exited ((processReads raises it.reads).1 ++ closeEvents)
              | .policyRaised => .exited ((processReads raises it.reads).1 ++ closeEvents)
              | .allHandled =>
                match bridgeLoop raises irest with
                | .blockedSelect evs2 => .blockedSelect ((processReads raises it.reads).1 ++ evs2)
                | .exited evs2 => .exited ((processReads raises it.reads).1 ++ evs2)) by
          conv_lhs => unfold bridgeLoop
          rw [if_neg hx]] at hbl
        cases h2 : (processReads raises it.reads).2 with
        | peerClosed =>
          rw [h2] at hbl
          exact absurd hbl (by simp)
        | policyRaised =>
          rw [h2] at hbl
          exact absurd hbl (by simp)
        | allHandled =>
          rw [h2] at hbl
          cases h3 : bridgeLoop raises irest with
          | blockedSelect evs2 =>
            rw [h3] at hbl
            injection hbl with h
            intro c hc
            rcases List.mem_append.mp (h ▸ hc) with hc' | hc'
            · exact processReads_no_closed raises it.reads c hc'
            · exact ih evs2 h3 c hc'
          | exited evs2 =>
            rw [h3] at hbl
            exact absurd hbl (by simp)
  · rw [show bridgeLoop raises ({ exceptional := false, reads := pre ++ (t, []) :: post } :: rest) =
        (match (processReads raises (pre ++ (t, []) :: post)).2 with
          | .peerClosed => .exited ((processReads raises (pre ++ (t, []) :: post)).1 ++ closeEvents)
          | .policyRaised => .exited ((processReads raises (pre ++ (t, []) :: post)).1 ++ closeEvents)
          | .allHandled =>
            match bridgeLoop raises rest with
            | .blockedSelect evs2 => .blockedSelect ((processReads raises (pre ++ (t, []) :: post)).1 ++ evs2)
            | .exited evs2 => .exited ((processReads raises (pre ++ (t, []) :: post)).1 ++ evs2)) by
      conv_lhs => unfold bridgeLoop
      rw [if_neg (by simp)]]
    rw [processReads_zero_read raises pre post t hpre]

/-- C5 witness: one iteration whose readiness list holds a normal read on
Primary, then a zero-length read on Primary, then a read on Secondary: the
first chunk is handled, the Secondary read is never delivered, both
connections are closed once. -/
theorem c5_witness :
    bridgeLoop (fun _ _ => false)
      [{ exceptional := false,
         reads := [(Conn.primary, [65]), (Conn.primary, []), (Conn.secondary, [66])] }] =
      .exited [CEvent.handled .primary [65], .closed .primary, .closed .secondary] :=
  (c5_relay_loop_cleanup (fun _ _ => false) [] [(Conn.primary, [65])]
    [(Conn.secondary, [66])] Conn.primary [] (by decide)).2.2

/-! ## C6 -/

/-- C6 counterexample.  With the automation Running (`script = "on"`),
worklist `[some 7]`, timer 0, clock 1 (threshold elapsed), a chat message
whose content `"hello"` is neither token still mutates the state: the
per-frame pacing block pops the worklist entry, issues a query, resets the
timer and advances the action counter — contradicting the claim that any
non-token content leaves state, timer and worklist unchanged. -/
theorem c6_counterexample :
    lucHandleMessage false 1 1
        { injected_to_server := 0, counter := 0, injections := 0, script := "on",
          items := [7], itemsleft := [some 7], timer := 0 }
        ⟨"ChatClientMultiMessage", "hello", []⟩ true =
      some ({ injected_to_server := 1, counter := 0, injections := 1, script := "on",
              items := [7], itemsleft := [], timer := 1 },
        [.send (.bidHouseSearch (some 7) 1)]) ∧
    ([] : List (Option Nat)) ≠ [some 7] := by
  constructor
  · unfold lucHandleMessage lucScriptTick lucAskItemPrice lucSendToServer
    norm_num [show ¬(("ChatClientMultiMessage" : String) =
        "ExchangeTypesItemsExchangerDescriptionForUserMessage") from by decide,
      show ¬(("hello" : String) = "stop") from by decide,
      show ¬(("hello" : String) = "lessgo") from by decide,
      show ("ChatClientMultiMessage" : String) ∉ maskedTypes from by decide]
  · decide

/-- C6 (amended): the start token puts the automation in `Running`, resets
the pacing timer to the current time and refills the worklist to the full
configured `items`; the stop token puts it in `Idle`; non-token content
causes no mode transition, and when the automation is Idle it leaves the
whole state unchanged — but while Running a non-token message may still
trigger a pacing action that mutates the worklist, timer and action
counter. -/
theorem c6_control_tokens (rr : Bool) (now now2 : ℚ) (s : LucState) (msg : PMsg)
    (fc : Bool) (htype : msg.type = "ChatClientMultiMessage") :
    (msg.content = "lessgo" → ∃ s' evs,
      lucHandleMessage rr now now2 s msg fc = some (s', evs) ∧
      s'.script = "on" ∧ s'.timer = now2 ∧ s'.itemsleft = s.items.map some) ∧
    (msg.content = "stop" → ∃ s' evs,
      lucHandleMessage rr now now2 s msg fc = some (s', evs) ∧ s'.script = "off") ∧
    (msg.content ≠ "lessgo" → msg.content ≠ "stop" → s.script ≠ "on" →
      lucHandleMessage rr now now2 s msg fc = some (s, [])) := by
  obtain ⟨ty, ct, descs⟩ := msg
  simp only at htype
  subst htype
  have hmask : ("ChatClientMultiMessage" : String) ∉ maskedTypes := by decide
  have hex : ¬(("ChatClientMultiMessage" : String) =
    "ExchangeTypesItemsExchangerDescriptionForUserMessage") := by decide
  refine ⟨?_, ?_, ?_⟩
  · intro h
    simp only at h
    subst h
    have hstop : ¬(("lessgo" : String) = "stop") := by decide
    have heq : lucHandleMessage rr now now2 s
        ⟨"ChatClientMultiMessage", "lessgo", descs⟩ fc =
        some ((lucSendMessage (lucOnState now2 (lucScriptTick now s).1) "gooooooooo").1,
          (lucScriptTick now s).2 ++
            [.send (lucSendMessage (lucOnState now2 (lucScriptTick now s).1) "gooooooooo").2]) := by
      unfold lucHandleMessage
      dsimp only
      rw [if_pos (Or.inl hmask), if_neg hex, if_pos rfl, if_neg hstop, if_pos rfl]
    refine ⟨_, _, heq, ?_, ?_, ?_⟩
    · simp [lucSendMessage, lucSendToServer, lucOnState]
    · simp [lucSendMessage, lucSendToServer, lucOnState]
    · simp [lucSendMessage, lucSendToServer, lucOnState, (lucScriptTick_preserves now s).1]
  · intro h
    simp only at h
    subst h
    have heq : lucHandleMessage rr now now2 s
        ⟨"ChatClientMultiMessage", "stop", descs⟩ fc =
        some ((lucSendMessage (lucOffState (lucScriptTick now s).1) "stooooooop").1,
          (lucScriptTick now s).2 ++
            [.send (lucSendMessage (lucOffState (lucScriptTick now s).1) "stooooooop").2]) := by
      unfold lucHandleMessage
      dsimp only
      rw [if_pos (Or.inl hmask), if_neg hex, if_pos rfl, if_pos rfl]
    refine ⟨_, _, heq, ?_⟩
    simp [lucSendMessage, lucSendToServer, lucOffState]
  · intro h1 h2 hidle
    simp only at h1 h2
    unfold lucHandleMessage
    dsimp only
    rw [lucScriptTick_idle now s hidle]
    dsimp only
    rw [if_pos (Or.inl hmask), if_neg hex, if_pos rfl, if_neg h2, if_neg h1]

/-- C6 witness: the amended theorem at a Running state receiving the start
token: the automation (re-)enters `Running` with timer `now2` and a full
worklist. -/
theorem c6_witness :
    ∃ s' evs,
      lucHandleMessage false 0 5
          { injected_to_server := 0, counter := 0, injections := 0, script := "off",
            items := [7, 8], itemsleft := [], timer := 0 }
          ⟨"ChatClientMultiMessage", "lessgo", []⟩ true = some (s', evs) ∧
      s'.script = "on" ∧ s'.timer = 5 ∧ s'.itemsleft = [7, 8].map some :=
  (c6_control_tokens false 0 5
    { injected_to_server := 0, counter := 0, injections := 0, script := "off",
      items := [7, 8], itemsleft := [], timer := 0 }
    ⟨"ChatClientMultiMessage", "lessgo", []⟩ true rfl).1 rfl

/-! ## C7 -/

/-- C7 counterexample.  Running automation, worklist `[some 7]`,
`injections = 2` (so this is the every-3rd, context-refresh action), timer
0, clock 1 (threshold elapsed): the refresh pair (leave + re-enter) is sent
but the resulting timer is still 0, not the current time 1 — the claim
that every action resets the pacing timer is false for refresh actions. -/
theorem c7_counterexample :
    lucHandleMessage false 1 1
        { injected_to_server := 0, counter := 0, injections := 2, script := "on",
          items := [7], itemsleft := [some 7], timer := 0 }
        ⟨"GameMapMovementMessage", "", []⟩ false =
      some ({ injected_to_server := 2, counter := 0, injections := 3, script := "on",
              items := [7], itemsleft := [some 7], timer := 0 },
        [.send (.leaveDialog 1), .send (.interactiveUse 522694 136144973 1)]) ∧
    (0 : ℚ) ≠ 1 := by
  constructor
  · unfold lucHandleMessage lucScriptTick lucDisconnectHdv lucConnectHdv lucSendToServer
    norm_num [show ("GameMapMovementMessage" : String) ∈ maskedTypes from by decide]
  · norm_num

/-- C7 (amended): while Running with a non-empty worklist, once more than
0.8 time units elapsed since `timer` the tick performs exactly one action
and advances the action counter: when `injections % 3 = 2` it sends the
leave/re-enter context-refresh pair, leaving worklist *and timer*
unchanged; otherwise it pops the most-recently-added worklist entry,
queries its price through `send_to_server`, and resets the timer to now. -/
theorem c7_pacing_actions (now : ℚ) (s : LucState)
    (hon : s.script = "on") (hne : s.itemsleft ≠ [])
    (hdiff : now - s.timer > 4/5) :
    (s.injections % 3 = 2 →
      lucScriptTick now s =
        ({ s with injected_to_server := s.injected_to_server + 2,
                  injections := s.injections + 1 },
         [.send (.leaveDialog (s.counter + 1)),
          .send (.interactiveUse 522694 136144973 (s.counter + 1))])) ∧
    (s.injections % 3 ≠ 2 →
      lucScriptTick now s =
        ({ s with itemsleft := s.itemsleft.dropLast,
                  injected_to_server := s.injected_to_server + 1,
                  timer := now, injections := s.injections + 1 },
         [.send (.bidHouseSearch (s.itemsleft.getLastD none) (s.counter + 1))])) := by
  have hlen : ¬s.itemsleft.length = 0 := by
    simpa [List.length_eq_zero] using hne
  constructor
  · intro h3
    unfold lucScriptTick lucDisconnectHdv lucConnectHdv lucSendToServer
    rw [if_pos hon, if_neg hlen]
    dsimp only
    rw [if_pos hdiff, if_pos h3]
  · intro h3
    unfold lucScriptTick lucAskItemPrice lucSendToServer
    rw [if_pos hon, if_neg hlen]
    dsimp only
    rw [if_pos hdiff, if_neg h3]

/-- C7 witness: the amended theorem at a concrete Running state with
`injections = 2`: the context-refresh pair fires and the timer stays 0. -/
theorem c7_witness :
    lucScriptTick 1
        { injected_to_server := 0, counter := 0, injections := 2, script := "on",
          items := [7], itemsleft := [some 7], timer := 0 } =
      ({ injected_to_server := 2, counter := 0, injections := 3, script := "on",
         items := [7], itemsleft := [some 7], timer := 0 },
       [.send (.leaveDialog 1), .send (.interactiveUse 522694 136144973 1)]) :=
  (c7_pacing_actions 1
    { injected_to_server := 0, counter := 0, injections := 2, script := "on",
      items := [7], itemsleft := [some 7], timer := 0 }
    rfl (by decide) (by norm_num)).1 rfl

/-! ## C8 -/

/-- C8 counterexample.  A raised error in a sink is *not* swallowed: when
the `requests.get` price-export call raises on a decoded exchanger
description, `LucInjector.handle_message` propagates the exception
(outcome `none` — the relay loop aborts and the session terminates); when
`dumper.dump` raises, `InjectorBridgeHandler.handle` aborts with the
session-fatal `dumpError` outcome. -/
theorem c8_counterexample :
    lucHandleMessage true 0 0 (lucInit [] 0)
        ⟨"ExchangeTypesItemsExchangerDescriptionForUserMessage", "",
          [⟨99, [1, 2, 3]⟩]⟩ false = none ∧
    injHandle (fun i => i == 42) (fun _ => true) true ⟨0, 0, 0, [], 100, true⟩
        [⟨42, 5, 0⟩] =
      .dumpError [.forwardRaw [⟨42, 5, 0⟩], .dbAppend ⟨42, 5, 0⟩] := by
  constructor
  · unfold lucHandleMessage lucScriptTick lucInit
    norm_num [show ("ExchangeTypesItemsExchangerDescriptionForUserMessage" : String)
        ∉ maskedTypes from by decide,
      show ¬(("off" : String) = "on") from by decide]
  · decide

/-- C8 (amended): sink failures propagate.  A raised error from the
reporting call (`requests.get`) escapes `LucInjector.handle_message`, and a
raised error from `dumper.dump` escapes `InjectorBridgeHandler.handle`;
both abort the relay loop and terminate the session (whose connections the
loop's `finally` then closes) rather than being swallowed. -/
theorem c8_sink_failures_propagate (now now2 : ℚ) (s : LucState)
    (msg : PMsg) (fc : Bool) (d : ItemDesc) (drest : List ItemDesc)
    (htype : msg.type = "ExchangeTypesItemsExchangerDescriptionForUserMessage")
    (hdescs : msg.itemTypeDescriptions = d :: drest)
    (registry : Nat → Bool) (dumpRaises : Frame → Bool) (si : InjState)
    (f : Frame) (chunk : List Frame)
    (hreg : registry f.id = true) (hrem : f.remaining = 0 ∨ f.remaining = 48)
    (hdump : ((injProcessFrame true si f).1.hasDumper
      && dumpRaises (injProcessFrame true si f).2) = true) :
    lucHandleMessage true now now2 s msg fc = none ∧
    injHandle registry dumpRaises true si (f :: chunk) =
      .dumpError [.forwardRaw (f :: chunk), .dbAppend (injProcessFrame true si f).2] := by
  constructor
  · obtain ⟨ty, ct, descs⟩ := msg
    simp only at htype hdescs
    subst htype
    subst hdescs
    have hmask8 : ("ExchangeTypesItemsExchangerDescriptionForUserMessage" : String)
      ∉ maskedTypes := by decide
    unfold lucHandleMessage
    dsimp only
    rw [if_pos (Or.inl hmask8), if_pos rfl]
    rfl
  · have hbody : injBodyStep registry dumpRaises true si f =
        .stopDump [.dbAppend (injProcessFrame true si f).2] := by
      simp only [injBodyStep, hreg, if_true, if_pos hrem, hdump]
    show (injFramesLoop registry dumpRaises true si (f :: chunk).head?
        (f :: chunk).tail).withEvents [.forwardRaw (f :: chunk)] = _
    rw [List.head?_cons, List.tail_cons,
      injFramesLoop_stopDump registry dumpRaises true si f chunk _ hbody]
    rfl

/-- C8 witness: the amended theorem at concrete inputs — a failing report
call on a decoded exchanger message, and a failing dump on a decoded
client frame. -/
theorem c8_witness :
    lucHandleMessage true 2 2 (lucInit [7] 0)
        ⟨"ExchangeTypesItemsExchangerDescriptionForUserMessage", "",
          [⟨12739, [10, 20, 30]⟩]⟩ true = none ∧
    injHandle (fun _ => true) (fun _ => true) true ⟨3, 4, 9, [], 100, true⟩
        [⟨8, 6, 48⟩] =
      .dumpError [.forwardRaw [⟨8, 6, 48⟩],
        .dbAppend (injProcessFrame true ⟨3, 4, 9, [], 100, true⟩ ⟨8, 6, 48⟩).2] :=
  c8_sink_failures_propagate 2 2 (lucInit [7] 0)
    ⟨"ExchangeTypesItemsExchangerDescriptionForUserMessage", "",
      [⟨12739, [10, 20, 30]⟩]⟩ true ⟨12739, [10, 20, 30]⟩ []
    rfl rfl (fun _ => true) (fun _ => true) ⟨3, 4, 9, [], 100, true⟩
    ⟨8, 6, 48⟩ [] rfl (by decide) (by decide)

/-! ## C9 -/

/-- C9: recognizing either control token is itself an injection.  On a
chat message whose content is the start or stop token (with the automation
idle or within its pacing threshold, so the tick itself is silent), the
handler sends exactly one synthetic chat confirmation to the server; it
passes through `send_to_server`, which assigns it counter
`self.counter + 1` and increments `injected_to_server` by exactly 1. -/
theorem c9_token_confirmation (rr : Bool) (now now2 : ℚ) (s : LucState)
    (msg : PMsg) (fc : Bool)
    (htype : msg.type = "ChatClientMultiMessage")
    (htok : msg.content = "lessgo" ∨ msg.content = "stop")
    (hquiet : s.script ≠ "on" ∨ ¬(now - s.timer > 4/5)) :
    ∃ s', lucHandleMessage rr now now2 s msg fc =
        some (s', [.send (.chat
          (if msg.content = "stop" then "stooooooop" else "gooooooooo")
          (s.counter + 1))]) ∧
      s'.injected_to_server = s.injected_to_server + 1 := by
  obtain ⟨hevs, hits, hcnt⟩ := lucScriptTick_quiet now s hquiet
  obtain ⟨ty, ct, descs⟩ := msg
  simp only at htype htok ⊢
  subst htype
  have hmask : ("ChatClientMultiMessage" : String) ∉ maskedTypes := by decide
  have hex : ¬(("ChatClientMultiMessage" : String) =
    "ExchangeTypesItemsExchangerDescriptionForUserMessage") := by decide
  rcases htok with h | h
  · subst h
    have hstop : ¬(("lessgo" : String) = "stop") := by decide
    have heq : lucHandleMessage rr now now2 s
        ⟨"ChatClientMultiMessage", "lessgo", descs⟩ fc =
        some ((lucSendMessage (lucOnState now2 (lucScriptTick now s).1) "gooooooooo").1,
          (lucScriptTick now s).2 ++
            [.send (lucSendMessage (lucOnState now2 (lucScriptTick now s).1) "gooooooooo").2]) := by
      unfold lucHandleMessage
      dsimp only
      rw [if_pos (Or.inl hmask), if_neg hex, if_pos rfl, if_neg hstop, if_pos rfl]
    refine ⟨(lucSendMessage (lucOnState now2 (lucScriptTick now s).1) "gooooooooo").1, ?_, ?_⟩
    · rw [heq, hevs]
      simp [lucSendMessage, lucSendToServer, lucOnState, hcnt, hstop]
    · simp [lucSendMessage, lucSendToServer, lucOnState, hits]
  · subst h
    have heq : lucHandleMessage rr now now2 s
        ⟨"ChatClientMultiMessage", "stop", descs⟩ fc =
        some ((lucSendMessage (lucOffState (lucScriptTick now s).1) "stooooooop").1,
          (lucScriptTick now s).2 ++
            [.send (lucSendMessage (lucOffState (lucScriptTick now s).1) "stooooooop").2]) := by
      unfold lucHandleMessage
      dsimp only
      rw [if_pos (Or.inl hmask), if_neg hex, if_pos rfl, if_pos rfl]
    refine ⟨(lucSendMessage (lucOffState (lucScriptTick now s).1) "stooooooop").1, ?_, ?_⟩
    · rw [heq, hevs]
      simp [lucSendMessage, lucSendToServer, lucOffState, hcnt]
    · simp [lucSendMessage, lucSendToServer, lucOffState, hits]

/-- C9 witness: the theorem at an idle state receiving the start token:
one confirmation with counter 1, `injected_to_server` goes from 0 to 1. -/
theorem c9_witness :
    ∃ s', lucHandleMessage false 0 0 (lucInit [5] 0)
        ⟨"ChatClientMultiMessage", "lessgo", []⟩ true =
        some (s', [.send (.chat
          (if ("lessgo" : String) = "stop" then "stooooooop" else "gooooooooo")
          ((lucInit [5] 0).counter + 1))]) ∧
      s'.injected_to_server = (lucInit [5] 0).injected_to_server + 1 :=
  c9_token_confirmation false 0 0 (lucInit [5] 0)
    ⟨"ChatClientMultiMessage", "lessgo", []⟩ true rfl (Or.inl rfl)
    (Or.inl (by decide))

/-! ## C10 -/

/-- C10: every genuine decoded server→client frame advances the internal
`self.counter` by one (lines 238-239), although such frames carry no
counter field; over a chunk of `n` decodable server frames the counter
grows by `n`, and the next synthetic client→server injection is therefore
assigned `counter + n + 1`. -/
theorem c10_server_frames_advance_counter (registry : Nat → Bool)
    (dumpRaises : Frame → Bool) (s : InjState) (chunk : List Frame)
    (hall : ∀ f ∈ chunk, registry f.id = true ∧ (f.remaining = 0 ∨ f.remaining = 48))
    (hdump : ∀ m, dumpRaises m = false) :
    ∃ s' evs, injHandle registry dumpRaises false s chunk = .ok s' evs ∧
      s'.counter = s.counter + chunk.length ∧
      (injSendToServer s').2 = s.counter + chunk.length + 1 := by
  obtain ⟨s', evs, hrun, hcnt, -, -⟩ :=
    injFramesLoop_server_run registry dumpRaises s chunk hall hdump
  refine ⟨s', [.forwardRaw chunk] ++ evs, ?_, hcnt, ?_⟩
  · simp only [injHandle, hrun, InjOutcome.withEvents]
  · simp only [injSendToServer, hcnt]

/-- C10 witness: a two-frame server→client chunk on a fresh handler,
followed by an injection assigned counter 3. -/
theorem c10_witness :
    ∃ s' evs, injHandle (fun _ => true) (fun _ => false) false
        ⟨0, 0, 0, [], 100, false⟩ [⟨1, 0, 0⟩, ⟨2, 0, 48⟩] = .ok s' evs ∧
      s'.counter = 0 + ([⟨1, 0, 0⟩, ⟨2, 0, 48⟩] : List Frame).length ∧
      (injSendToServer s').2 = 0 + ([⟨1, 0, 0⟩, ⟨2, 0, 48⟩] : List Frame).length + 1 :=
  c10_server_frames_advance_counter (fun _ => true) (fun _ => false)
    ⟨0, 0, 0, [], 100, false⟩ [⟨1, 0, 0⟩, ⟨2, 0, 48⟩]
    (by decide) (fun _ => rfl)

end LaBot
